import Mathlib

/-!
Verification of the background task lifecycle engine and the streaming
delivery buffer of the Codegen_slack repository.

The streaming buffer is embedded from `src/ai/streaming.py`
(`StreamingResponseHandler`), the status-command formatting from
`src/listeners/commands/parsing_status_command.py`, and the
codebase-initialization boundary from `src/agents/codegen_agent.py`
(`CodegenAgent._initialize_codebase`).  The preparation attempt loop and the
backoff policy are absent from the source tree (only their caller, the
`/parsing-status` command, is present); they are modelled from the
specification and marked as such.
-/

set_option maxHeartbeats 1000000

namespace Spec2Proof

/-! ## String helpers -/

/-- Concatenation of a list of strings by repeated append, exactly the shape of
the Python accumulation loop `buffer += fragment`. -/
def concatAll (l : List String) : String := l.foldl (· ++ ·) ""

theorem foldl_append_shift (l : List String) (a : String) :
    l.foldl (· ++ ·) a = a ++ concatAll l := by
  induction l generalizing a with
  | nil => simp [concatAll]
  | cons x xs ih =>
    simp only [List.foldl_cons, concatAll]
    rw [ih (a ++ x), ih (("" : String) ++ x)]
    rw [String.append_assoc]
    rw [String.empty_append]

theorem concatAll_nil : concatAll [] = "" := rfl

theorem concatAll_append (l₁ l₂ : List String) :
    concatAll (l₁ ++ l₂) = concatAll l₁ ++ concatAll l₂ := by
  simp only [concatAll, List.foldl_append]
  rw [foldl_append_shift l₂ (List.foldl (· ++ ·) "" l₁)]
  rfl

theorem concatAll_concat (l : List String) (x : String) :
    concatAll (l ++ [x]) = concatAll l ++ x := by
  rw [concatAll_append]
  simp [concatAll]

theorem concatAll_cons (x : String) (l : List String) :
    concatAll (x :: l) = x ++ concatAll l := by
  show List.foldl (· ++ ·) ("" ++ x) l = x ++ concatAll l
  rw [foldl_append_shift, String.empty_append]

/-- Boolean prefix test on character lists. -/
def isPrefixL : List Char → List Char → Bool
  | [], _ => true
  | _ :: _, [] => false
  | a :: as, b :: bs => a == b && isPrefixL as bs

/-- Boolean substring-occurrence test on character lists. -/
def hasSubL (pat : List Char) : List Char → Bool
  | [] => isPrefixL pat []
  | c :: rest => isPrefixL pat (c :: rest) || hasSubL pat rest

/-- `strContains s pat` holds when `pat` occurs as a contiguous substring of
`s`; this is the property "message mentions pat". -/
def strContains (s pat : String) : Bool := hasSubL pat.data s.data

theorem isPrefixL_self_append (l rest : List Char) :
    isPrefixL l (l ++ rest) = true := by
  induction l with
  | nil => rfl
  | cons a as ih => simp [isPrefixL, ih]

theorem hasSubL_of_suffix (pat xs ys : List Char) (h : hasSubL pat ys = true) :
    hasSubL pat (xs ++ ys) = true := by
  induction xs with
  | nil => simpa using h
  | cons c cs ih => simp [hasSubL, ih]

theorem hasSubL_self_append (pat rest : List Char) :
    hasSubL pat (pat ++ rest) = true := by
  cases pat with
  | nil =>
    cases rest with
    | nil => rfl
    | cons c cs => simp [hasSubL, isPrefixL]
  | cons a as =>
    simp only [hasSubL, Bool.or_eq_true]
    exact Or.inl (isPrefixL_self_append (a :: as) rest)

/-! ## Streaming delivery buffer — `src/ai/streaming.py`, `StreamingResponseHandler`

State after `start()` has run: `is_running = True`, `last_update_time = t0`
(the clock value at `start`), an initial placeholder message posted whose
Slack timestamp is recorded in `message_ts`, empty buffer and queue.  Time is
modelled in milliseconds as `Nat`; the update interval of 0.5 s is 500 ms.
The float comparison `current_time - last_update_time >= update_interval`
is rendered as `last_update_time + update_interval ≤ current_time` (the two
agree whenever the clock is monotone, and both are false for a clock reading
before `last_update_time`).  `updates` is the log of texts passed to
successful `chat_update` calls, oldest first. -/

structure HandlerState where
  messageTs : Option Nat
  buffer : String
  queue : List String
  lastUpdateTime : Nat
  isComplete : Bool
  isRunning : Bool
  updates : List String
deriving DecidableEq, Repr

/-- Text of the initial placeholder message posted by `start()` (line 43). -/
def placeholderText : String := "⏳ Thinking..."

/-- `update_interval = 0.5` seconds (line 30), in milliseconds. -/
def updateInterval : Nat := 500

/-- State right after `start()` (lines 35-49): running, clock recorded,
placeholder posted with timestamp `ts`, nothing buffered or delivered. -/
def initialState (t0 ts : Nat) : HandlerState :=
  { messageTs := some ts
    buffer := ""
    queue := []
    lastUpdateTime := t0
    isComplete := false
    isRunning := true
    updates := [] }

/-- `add_content` (lines 51-58): `self.queue.put(content)`. -/
def addContent (s : HandlerState) (content : String) : HandlerState :=
  { s with queue := s.queue ++ [content] }

/-- `complete` (lines 60-62): `self.is_complete = True`. -/
def complete (s : HandlerState) : HandlerState :=
  { s with isComplete := true }

/-- One non-raising iteration of `_update_message_loop` (lines 64-99) at clock
reading `now`, taken atomically (no producer event interleaves inside one
iteration, so the queue re-check on line 89 sees the queue just drained):
1. drain the queue into `buffer` (lines 69-70);
2. if the interval has elapsed or `is_complete`, and the buffer is non-empty,
   issue one `chat_update` with the whole buffer and record the time
   (lines 72-86);
3. if `is_complete` and the queue is empty, clear `is_running` and break
   (lines 88-91).
When `is_running` is false the `while` guard (line 66) stops the loop and the
state is unchanged. -/
def loopIter (s : HandlerState) (now : Nat) : HandlerState :=
  if s.isRunning then
    { s with
      buffer := s.queue.foldl (· ++ ·) s.buffer
      queue := []
      updates :=
        if (decide (s.lastUpdateTime + updateInterval ≤ now) || s.isComplete)
             && (s.queue.foldl (· ++ ·) s.buffer) != "" then
          s.updates ++ [s.queue.foldl (· ++ ·) s.buffer]
        else s.updates
      lastUpdateTime :=
        if (decide (s.lastUpdateTime + updateInterval ≤ now) || s.isComplete)
             && (s.queue.foldl (· ++ ·) s.buffer) != "" then now
        else s.lastUpdateTime
      -- the queue tested on line 89 is the one just drained on lines 69-70,
      -- hence empty within this atomic iteration
      isRunning := if s.isComplete then false else s.isRunning }
  else s

/-- One iteration of `_update_message_loop` in which the `chat_update` call on
lines 80-84 raises.  The drain (lines 69-70) has already mutated `buffer` and
emptied the queue; the exception skips the `last_update_time` assignment and
is caught on line 96, which logs, sets `is_running = False` and breaks
(lines 97-99).  No error text is appended and no further sink call is made
from inside the loop.  If the guard shows no `chat_update` would be attempted,
no sink exception can occur and the iteration is the normal one. -/
def loopIterFail (s : HandlerState) (now : Nat) : HandlerState :=
  if s.isRunning
     && ((decide (s.lastUpdateTime + updateInterval ≤ now) || s.isComplete)
          && (s.queue.foldl (· ++ ·) s.buffer) != "") then
    { s with
      buffer := s.queue.foldl (· ++ ·) s.buffer
      queue := []
      isRunning := false }
  else loopIter s now

/-- Events of one session: a producer `push` (`add_content`), the producer's
`finish` (`complete`), or one atomic non-raising flush-loop iteration at
clock reading `now`. -/
inductive Ev where
  | push (f : String)
  | finish
  | iter (now : Nat)
deriving DecidableEq, Repr

def step (s : HandlerState) : Ev → HandlerState
  | .push f => addContent s f
  | .finish => complete s
  | .iter now => loopIter s now

def runFrom (s : HandlerState) (es : List Ev) : HandlerState :=
  es.foldl step s

/-- Run a whole session schedule from the post-`start()` state. -/
def run (t0 ts : Nat) (es : List Ev) : HandlerState :=
  runFrom (initialState t0 ts) es

/-- The fragments injected by a schedule, in arrival order. -/
def pushedOf : List Ev → List String
  | [] => []
  | Ev.push f :: es => f :: pushedOf es
  | Ev.finish :: es => pushedOf es
  | Ev.iter _ :: es => pushedOf es

/-- Schedule contains no `finish` event. -/
def noFinishB (es : List Ev) : Bool :=
  es.all fun e => match e with
    | .finish => false
    | _ => true

/-- Schedule consists of flush-loop iterations only. -/
def itersOnlyB (es : List Ev) : Bool :=
  es.all fun e => match e with
    | .iter _ => true
    | _ => false

/-- Every iteration in the schedule happens strictly before clock `bound`. -/
def itersBeforeB (bound : Nat) (es : List Ev) : Bool :=
  es.all fun e => match e with
    | .iter now => now < bound
    | _ => true

/-- Every pushed fragment in the schedule is the empty string. -/
def pushesEmptyB (es : List Ev) : Bool :=
  es.all fun e => match e with
    | .push f => f == ""
    | _ => true

/-- The text currently displayed by the sink message: the last successful
`chat_update` text, or the placeholder from `start()` if none was issued. -/
def sinkText (s : HandlerState) : String :=
  (s.updates.getLast?).getD placeholderText

/-! ### Basic lemmas about the flush-loop step -/

theorem runFrom_append (s : HandlerState) (as bs : List Ev) :
    runFrom s (as ++ bs) = runFrom (runFrom s as) bs := by
  simp [runFrom, List.foldl_append]

theorem runFrom_cons (s : HandlerState) (e : Ev) (es : List Ev) :
    runFrom s (e :: es) = runFrom (step s e) es := rfl

theorem loopIter_isComplete (s : HandlerState) (now : Nat) :
    (loopIter s now).isComplete = s.isComplete := by
  unfold loopIter
  split <;> rfl

theorem loopIterFail_isComplete (s : HandlerState) (now : Nat) :
    (loopIterFail s now).isComplete = s.isComplete := by
  unfold loopIterFail
  split
  · rfl
  · exact loopIter_isComplete s now

theorem loopIter_not_running (s : HandlerState) (now : Nat)
    (h : s.isRunning = false) : loopIter s now = s := by
  unfold loopIter
  rw [if_neg]
  simp [h]

theorem loopIter_content (s : HandlerState) (now : Nat) :
    (loopIter s now).buffer ++ concatAll (loopIter s now).queue
      = s.buffer ++ concatAll s.queue := by
  unfold loopIter
  split
  · simp only
    rw [concatAll_nil, String.append_empty, foldl_append_shift]
  · rfl

/-- Claim-independent core invariant: running the session from any state adds
exactly the concatenation of the schedule's pushed fragments to the combined
content `buffer ++ concat queue`. -/
theorem runFrom_content (s : HandlerState) (es : List Ev) :
    (runFrom s es).buffer ++ concatAll (runFrom s es).queue
      = s.buffer ++ concatAll s.queue ++ concatAll (pushedOf es) := by
  induction es generalizing s with
  | nil => simp [runFrom, pushedOf, concatAll_nil, String.append_empty]
  | cons e es ih =>
    rw [runFrom_cons, ih (step s e)]
    cases e with
    | push f =>
      show (s.buffer ++ concatAll (s.queue ++ [f])) ++ _ = _
      rw [concatAll_concat, ← String.append_assoc]
      rw [show pushedOf (Ev.push f :: es) = f :: pushedOf es from rfl]
      rw [concatAll_cons, String.append_assoc, String.append_assoc]
    | finish =>
      show (s.buffer ++ concatAll s.queue) ++ _ = _
      rfl
    | iter t =>
      rw [show step s (.iter t) = loopIter s t from rfl, loopIter_content]
      rfl

theorem noFinishB_tail {e : Ev} {es : List Ev} (h : noFinishB (e :: es) = true) :
    noFinishB es = true := by
  rw [noFinishB, List.all_cons, Bool.and_eq_true] at h
  exact h.2

theorem itersOnlyB_tail {e : Ev} {es : List Ev} (h : itersOnlyB (e :: es) = true) :
    itersOnlyB es = true := by
  rw [itersOnlyB, List.all_cons, Bool.and_eq_true] at h
  exact h.2

/-- Before `finish`, a session stays incomplete and the loop keeps running. -/
theorem runFrom_noFinish (s : HandlerState) (es : List Ev)
    (hc : s.isComplete = false) (hr : s.isRunning = true)
    (hes : noFinishB es = true) :
    (runFrom s es).isComplete = false ∧ (runFrom s es).isRunning = true := by
  induction es generalizing s with
  | nil => exact ⟨hc, hr⟩
  | cons e es ih =>
    rw [runFrom_cons]
    cases e with
    | push f => exact ih (addContent s f) hc hr (noFinishB_tail hes)
    | finish =>
      rw [noFinishB, List.all_cons] at hes
      simp at hes
    | iter t =>
      refine ih (loopIter s t) ?_ ?_ (noFinishB_tail hes)
      · rw [loopIter_isComplete]; exact hc
      · unfold loopIter
        rw [if_pos hr]
        simp [hc, hr]

/-- Once completion has been observed, the very next loop iteration stops the
loop (the drained queue is empty, so the break on lines 88-91 fires). -/
theorem loopIter_stops (s : HandlerState) (now : Nat)
    (hc : s.isComplete = true) : (loopIter s now).isRunning = false := by
  unfold loopIter
  by_cases hr : s.isRunning = true
  · rw [if_pos hr]
    simp [hc]
  · rw [if_neg hr]
    simpa using hr

/-- A stopped loop is unaffected by further loop iterations. -/
theorem runFrom_stopped (s : HandlerState) (es : List Ev)
    (hr : s.isRunning = false) (hes : itersOnlyB es = true) :
    runFrom s es = s := by
  induction es generalizing s with
  | nil => rfl
  | cons e es ih =>
    cases e with
    | push f =>
      rw [itersOnlyB, List.all_cons] at hes
      simp at hes
    | finish =>
      rw [itersOnlyB, List.all_cons] at hes
      simp at hes
    | iter t =>
      rw [runFrom_cons]
      rw [show step s (.iter t) = loopIter s t from rfl, loopIter_not_running s t hr]
      exact ih s hr (itersOnlyB_tail hes)

theorem str_append_eq_empty {a b : String} (h : a ++ b = "") :
    a = "" ∧ b = "" := by
  have hd : a.data ++ b.data = ([] : List Char) := by
    have h2 := congrArg String.data h
    rwa [String.data_append] at h2
  rcases List.append_eq_nil.mp hd with ⟨ha, hb⟩
  exact ⟨String.ext ha, String.ext hb⟩

theorem itersBeforeB_tail {bound : Nat} {e : Ev} {es : List Ev}
    (h : itersBeforeB bound (e :: es) = true) : itersBeforeB bound es = true := by
  rw [itersBeforeB, List.all_cons, Bool.and_eq_true] at h
  exact h.2

theorem itersBeforeB_head {bound t : Nat} {es : List Ev}
    (h : itersBeforeB bound (Ev.iter t :: es) = true) : t < bound := by
  rw [itersBeforeB, List.all_cons, Bool.and_eq_true] at h
  exact of_decide_eq_true h.1

/-- A loop iteration before the interval has elapsed and before completion
issues no sink call: it only drains the queue into the buffer. -/
theorem loopIter_quiet (s : HandlerState) (t : Nat)
    (hc : s.isComplete = false) (hr : s.isRunning = true)
    (htime : t < s.lastUpdateTime + updateInterval) :
    (loopIter s t).updates = s.updates
    ∧ (loopIter s t).lastUpdateTime = s.lastUpdateTime := by
  unfold loopIter
  rw [if_pos hr]
  have hd : decide (s.lastUpdateTime + updateInterval ≤ t) = false :=
    decide_eq_false (by omega)
  simp [hd, hc]

/-- Within one update interval of the last delivery, and before `finish`, the
flush loop performs no sink call at all: the update log and the recorded
last-update time are untouched. -/
theorem runFrom_quiet (s : HandlerState) (es : List Ev)
    (hc : s.isComplete = false) (hr : s.isRunning = true)
    (hes : noFinishB es = true)
    (ht : itersBeforeB (s.lastUpdateTime + updateInterval) es = true) :
    (runFrom s es).updates = s.updates
    ∧ (runFrom s es).lastUpdateTime = s.lastUpdateTime := by
  induction es generalizing s with
  | nil => exact ⟨rfl, rfl⟩
  | cons e es ih =>
    rw [runFrom_cons]
    cases e with
    | push f =>
      exact ih (addContent s f) hc hr (noFinishB_tail hes) (itersBeforeB_tail ht)
    | finish =>
      rw [noFinishB, List.all_cons] at hes
      simp at hes
    | iter t =>
      have hq := loopIter_quiet s t hc hr (itersBeforeB_head ht)
      have hc2 : (loopIter s t).isComplete = false := by
        rw [loopIter_isComplete]; exact hc
      have hr2 : (loopIter s t).isRunning = true := by
        unfold loopIter
        rw [if_pos hr]
        simp [hc, hr]
      have ih2 := ih (loopIter s t) hc2 hr2 (noFinishB_tail hes)
          (by rw [hq.2]; exact itersBeforeB_tail ht)
      constructor
      · show (runFrom (loopIter s t) es).updates = s.updates
        rw [ih2.1, hq.1]
      · show (runFrom (loopIter s t) es).lastUpdateTime = s.lastUpdateTime
        rw [ih2.2, hq.2]

/-- The loop iteration that observes completion: it drains the queue, issues
the final full-buffer update exactly when that buffer is non-empty, and stops
the loop. -/
theorem loopIter_final (s : HandlerState) (t : Nat)
    (hc : s.isComplete = true) (hr : s.isRunning = true) :
    (loopIter s t).isRunning = false
    ∧ (loopIter s t).buffer = s.buffer ++ concatAll s.queue
    ∧ (loopIter s t).updates =
        (if (s.buffer ++ concatAll s.queue) != "" then
          s.updates ++ [s.buffer ++ concatAll s.queue]
        else s.updates) := by
  unfold loopIter
  rw [if_pos hr]
  rw [foldl_append_shift]
  simp [hc]

/-- Every text ever passed to `chat_update` is non-empty (the guard on
line 75 suppresses empty updates). -/
theorem runFrom_updates_nonempty (s : HandlerState) (es : List Ev)
    (h : ∀ u ∈ s.updates, u ≠ "") :
    ∀ u ∈ (runFrom s es).updates, u ≠ "" := by
  induction es generalizing s with
  | nil => exact h
  | cons e es ih =>
    rw [runFrom_cons]
    refine ih (step s e) ?_
    cases e with
    | push f => exact h
    | finish => exact h
    | iter t =>
      show ∀ u ∈ (loopIter s t).updates, u ≠ ""
      unfold loopIter
      by_cases hr : s.isRunning = true
      · rw [if_pos hr]
        by_cases hupd : ((decide (s.lastUpdateTime + updateInterval ≤ t) || s.isComplete)
            && ((s.queue.foldl (· ++ ·) s.buffer) != "")) = true
        · simp only [if_pos hupd]
          intro u hu
          have hu2 : u ∈ s.updates ++ [s.queue.foldl (· ++ ·) s.buffer] := hu
          rcases List.mem_append.mp hu2 with h1 | h2
          · exact h u h1
          · rw [List.mem_singleton.mp h2]
            rw [Bool.and_eq_true] at hupd
            exact bne_iff_ne.mp hupd.2
        · simp only [if_neg hupd]
          exact h
      · rw [if_neg hr]
        exact h

/-- If every fragment ever pushed is empty, the loop never issues any sink
call and the combined content stays empty. -/
theorem runFrom_allEmpty (s : HandlerState) (es : List Ev)
    (h0 : s.buffer ++ concatAll s.queue = "") (h1 : s.updates = [])
    (hes : pushesEmptyB es = true) :
    (runFrom s es).updates = [] ∧ (runFrom s es).buffer = "" := by
  induction es generalizing s with
  | nil =>
    refine ⟨h1, ?_⟩
    exact (str_append_eq_empty h0).1
  | cons e es ih =>
    rw [runFrom_cons]
    have hes2 : pushesEmptyB es = true := by
      rw [pushesEmptyB, List.all_cons, Bool.and_eq_true] at hes
      exact hes.2
    cases e with
    | push f =>
      have hf : f = "" := by
        rw [pushesEmptyB, List.all_cons, Bool.and_eq_true] at hes
        exact eq_of_beq hes.1
      refine ih (addContent s f) ?_ h1 hes2
      show s.buffer ++ concatAll (s.queue ++ [f]) = ""
      rw [concatAll_concat, hf, String.append_empty]
      exact h0
    | finish => exact ih (complete s) h0 h1 hes2
    | iter t =>
      have hcontent : (loopIter s t).buffer ++ concatAll (loopIter s t).queue = "" := by
        rw [loopIter_content]; exact h0
      refine ih (loopIter s t) hcontent ?_ hes2
      show (loopIter s t).updates = []
      unfold loopIter
      by_cases hr : s.isRunning = true
      · rw [if_pos hr]
        have hb : s.queue.foldl (· ++ ·) s.buffer = "" := by
          rw [foldl_append_shift]; exact h0
        have hcond : ¬ (((decide (s.lastUpdateTime + updateInterval ≤ t) || s.isComplete)
            && ((s.queue.foldl (· ++ ·) s.buffer) != "")) = true) := by
          rw [hb]; simp
        simp only [if_neg hcond]
        exact h1
      · rw [if_neg hr]
        exact h1

/-! ## Status command — `src/listeners/commands/parsing_status_command.py`

`parsing_status_callback` (lines 26-57) reads a status snapshot
`{status, repo, error}` from the agent and formats the user-visible reply by
dispatching on the `status` string (lines 42-54). -/

structure ParsingStatus where
  status : String
  repo : String
  error : String
deriving DecidableEq, Repr

/-- The reply text built on lines 42-54 for one status snapshot. -/
def formatParsingStatus (st : ParsingStatus) : String :=
  if st.status == "not_started" then
    "Repository parsing has not started for `" ++ st.repo ++ "`."
  else if st.status == "in_progress" then
    "Repository parsing is in progress for `" ++ st.repo ++ "`. Please wait..."
  else if st.status == "completed" then
    "Repository parsing completed successfully for `" ++ st.repo ++ "`."
  else if st.status == "failed" then
    "Repository parsing failed for `" ++ st.repo ++ "` with error: " ++ st.error
      ++ "\n\nYou can ask the agent to \x27retry parsing\x27 to attempt again."
  else
    "Unknown parsing status: " ++ st.status

/-! ## Codebase initialization — `src/agents/codegen_agent.py`

`CodegenAgent._initialize_codebase` (lines 87-122): guard on availability,
then a `try` block that constructs a `CodegenApp`, parses the repository,
retrieves the codebase and updates the agent state, returning `True`; the
bare `except Exception` (lines 120-122) logs and returns `False`.  The three
preparer calls are modelled as `Except`-valued outcomes; the outer `Except`
of `initializeCodebase` is what would escape to the caller. -/

structure Codebase where
  id : Nat
deriving DecidableEq, Repr

structure AgentState where
  currentCodebase : Option Codebase
  currentRepo : Option String
  agentInstance : Option Nat
  appInstance : Option String
deriving DecidableEq, Repr

/-- Outcomes of the three preparer calls made inside the `try` block:
`CodegenApp(...)` construction (line 105), `parse_repo()` (line 108) and
`get_codebase()` (line 111); an `error e` is a raised exception with
message `e`. -/
structure PreparerRun where
  mkApp : Except String String
  parseRepo : Except String Unit
  getCodebase : Except String Codebase
deriving Repr

/-- Body of the `try` block (lines 101-119): any raised exception
propagates. -/
def initCodebaseBody (p : PreparerRun) (repoName : String) (st : AgentState) :
    Except String (Bool × AgentState) := do
  let app ← p.mkApp
  let _ ← p.parseRepo
  let cb ← p.getCodebase
  .ok (true,
    { st with
      currentCodebase := some cb
      currentRepo := some repoName
      appInstance := some app })

/-- `_initialize_codebase` (lines 87-122) as its caller sees it: the guard on
line 97 returns `False` when the library is unavailable, and the `except`
clause turns every raised exception into a logged `False` return. -/
def initializeCodebase (available : Bool) (p : PreparerRun) (repoName : String)
    (st : AgentState) : Except String (Bool × AgentState) :=
  if !available then .ok (false, st)
  else
    match initCodebaseBody p repoName st with
    | .ok r => .ok r
    | .error _ => .ok (false, st)

/-! ## Preparation attempt loop and backoff — modelled from the spec

The spec's PreparationJob polling loop and BackoffPolicy have no
implementation under `src/`: the `/parsing-status` command calls
`agent.get_parsing_status()`, but no `get_parsing_status`, phase field,
retry loop or backoff function exists in any file of the source tree. -/

inductive Phase where
  | notStarted
  | inProgress
  | completed
  | failed
deriving DecidableEq, Repr

structure ReadyInfo where
  ready : Bool
  itemCount : Nat
deriving DecidableEq, Repr

structure JobOutcome where
  phase : Phase
  lastError : Option String
deriving DecidableEq, Repr

/-- Modelled from the spec: the distinguishing message of §4.1's edge-case
policy for a ready-but-empty readiness payload. -/
def emptyResultMsg : String := "preparer reported ready with an empty result set"

/-- Modelled from the spec: the timeout-specific message of §4.1 step 5. -/
def timeoutMsg : String := "preparer did not become ready within the attempt limit"

/-- Modelled from the spec: `MAX_ATTEMPTS` (policy constant, e.g. 10-15). -/
def maxAttempts : Nat := 10

/-- Modelled from the spec: steps 2-5 of §4.1's background attempt loop,
missing from `src/` (only its caller, the `/parsing-status` command, is
present).  `polls i` is the preparer's answer to the i-th `isReady()` poll:
an exception message or a `{ready, itemCount}` payload.  Ready with a
non-empty result set gives Completed; ready with zero items gives Failed
with the distinguishing message; an exception gives Failed with the message
preserved; exhausting the attempts gives Failed with the timeout message. -/
def pollLoop (polls : Nat → Except String ReadyInfo) : Nat → Nat → JobOutcome
  | 0, _ => ⟨Phase.failed, some timeoutMsg⟩
  | fuel + 1, i =>
    match polls i with
    | .error e => ⟨Phase.failed, some e⟩
    | .ok info =>
      if info.ready then
        if info.itemCount = 0 then ⟨Phase.failed, some emptyResultMsg⟩
        else ⟨Phase.completed, none⟩
      else pollLoop polls fuel (i + 1)

/-- Modelled from the spec: one full run of the attempt loop, polling
`isReady()` up to `maxAttempts` times starting from attempt index 0. -/
def attemptLoop (polls : Nat → Except String ReadyInfo) : JobOutcome :=
  pollLoop polls maxAttempts 0

/-- Modelled from the spec: BackoffPolicy §4.2, `wait(attempt_index)` of the
suggested shape `base * (i+1)`, capped at a maximum per-attempt wait. -/
def backoffWait (base cap i : Nat) : Nat := min (base * (i + 1)) cap

/-! ## Claims -/

/-- Claim C1, as stated, is false at the degenerate input: for the session
`push ""` then `finish`, the loop terminates but issues no sink update at all
(the guard `if self.buffer:` on line 75 suppresses the empty update), so no
final update call whose content equals the concatenation exists: the last
update is `none`, not `some ""`. -/
theorem claim1_counterexample :
    (run 0 1 [Ev.push "", Ev.finish, Ev.iter 600]).isRunning = false
    ∧ (run 0 1 [Ev.push "", Ev.finish, Ev.iter 600]).updates = []
    ∧ (run 0 1 [Ev.push "", Ev.finish, Ev.iter 600]).updates.getLast?
        ≠ some (concatAll (pushedOf [Ev.push "", Ev.finish, Ev.iter 600])) := by
  decide

/-- Claim C1 (amended): for every schedule of pushes (with arbitrary
interleaved loop iterations), followed by `finish` and loop iterations until
termination, the buffer at loop termination equals the concatenation of all
injected fragments in arrival order; and whenever that concatenation is
non-empty, the content of the final sink update call equals it (when it is
empty, no update call is issued at all). -/
theorem claim1_buffer_and_final_update (t0 ts t1 : Nat) (xs ys : List Ev)
    (hx : noFinishB xs = true) (hys : itersOnlyB ys = true) :
    (run t0 ts (xs ++ Ev.finish :: Ev.iter t1 :: ys)).isRunning = false
    ∧ (run t0 ts (xs ++ Ev.finish :: Ev.iter t1 :: ys)).buffer
        = concatAll (pushedOf xs)
    ∧ (concatAll (pushedOf xs) ≠ "" →
        (run t0 ts (xs ++ Ev.finish :: Ev.iter t1 :: ys)).updates.getLast?
          = some (concatAll (pushedOf xs))) := by
  have hsplit : run t0 ts (xs ++ Ev.finish :: Ev.iter t1 :: ys)
      = runFrom (loopIter (complete (runFrom (initialState t0 ts) xs)) t1) ys := by
    simp only [run, runFrom_append]
    rfl
  have hpre := runFrom_noFinish (initialState t0 ts) xs rfl rfl hx
  have hC : (runFrom (initialState t0 ts) xs).buffer
      ++ concatAll (runFrom (initialState t0 ts) xs).queue
      = concatAll (pushedOf xs) := by
    rw [runFrom_content]
    show ("" : String) ++ concatAll [] ++ _ = _
    rw [concatAll_nil, String.append_empty, String.empty_append]
  have hfin := loopIter_final (complete (runFrom (initialState t0 ts) xs)) t1
      rfl hpre.2
  rw [hsplit, runFrom_stopped _ ys hfin.1 hys]
  refine ⟨hfin.1, ?_, ?_⟩
  · rw [hfin.2.1]
    exact hC
  · intro hne
    rw [hfin.2.2]
    have hC2 : (complete (runFrom (initialState t0 ts) xs)).buffer
        ++ concatAll (complete (runFrom (initialState t0 ts) xs)).queue
        = concatAll (pushedOf xs) := hC
    have hbne : ((complete (runFrom (initialState t0 ts) xs)).buffer
        ++ concatAll (complete (runFrom (initialState t0 ts) xs)).queue) != ""
        := by
      rw [hC2]
      exact bne_iff_ne.mpr hne
    rw [if_pos hbne, List.getLast?_concat, hC2]

/-- Claim C1 witness: two fragments, then finish, then one loop iteration:
termination with the concatenated buffer delivered by the final update. -/
theorem claim1_witness :
    (run 0 1 [Ev.push "Hello ", Ev.push "world", Ev.finish, Ev.iter 600]).isRunning
      = false
    ∧ (run 0 1 [Ev.push "Hello ", Ev.push "world", Ev.finish, Ev.iter 600]).buffer
        = concatAll (pushedOf [Ev.push "Hello ", Ev.push "world"])
    ∧ (run 0 1 [Ev.push "Hello ", Ev.push "world", Ev.finish, Ev.iter 600]).updates.getLast?
        = some (concatAll (pushedOf [Ev.push "Hello ", Ev.push "world"])) := by
  have h := claim1_buffer_and_final_update 0 1 600
      [Ev.push "Hello ", Ev.push "world"] [] (by decide) (by decide)
  exact ⟨h.1, h.2.1, h.2.2 (by decide)⟩

/-- Claim C2 (modelled from the spec, §4.1 edge-case policy): if the loop
reaches a poll that reports ready with `itemCount = 0`, the outcome is the
Failed phase with the distinguishing empty-result message — never
Completed —, and that message differs from the timeout message. -/
theorem claim2_empty_ready_fails (polls : Nat → Except String ReadyInfo) (i : Nat)
    (hi : i < maxAttempts)
    (hready : polls i = Except.ok ⟨true, 0⟩)
    (hbefore : ∀ j, j < i →
        ∃ info, polls j = Except.ok info ∧ info.ready = false) :
    attemptLoop polls = ⟨Phase.failed, some emptyResultMsg⟩
    ∧ (attemptLoop polls).phase ≠ Phase.completed
    ∧ emptyResultMsg ≠ timeoutMsg := by
  have hmain : ∀ (fuel : Nat), ∀ (i0 k : Nat), k < fuel →
      polls (i0 + k) = Except.ok ⟨true, 0⟩ →
      (∀ j, j < k → ∃ info, polls (i0 + j) = Except.ok info ∧ info.ready = false) →
      pollLoop polls fuel i0 = ⟨Phase.failed, some emptyResultMsg⟩ := by
    intro fuel
    induction fuel with
    | zero => intro i0 k hk; omega
    | succ n ih =>
      intro i0 k hk hrdy hbef
      cases k with
      | zero =>
        rw [Nat.add_zero] at hrdy
        unfold pollLoop
        rw [hrdy]
        simp
      | succ m =>
        rcases hbef 0 (Nat.succ_pos m) with ⟨info, hinfo, hnr⟩
        rw [Nat.add_zero] at hinfo
        unfold pollLoop
        rw [hinfo]
        simp only [hnr, Bool.false_eq_true, if_false]
        refine ih (i0 + 1) m (by omega) ?_ ?_
        · have heq : i0 + 1 + m = i0 + (m + 1) := by omega
          rw [heq]
          exact hrdy
        · intro j hj
          have heq : i0 + 1 + j = i0 + (j + 1) := by omega
          rw [heq]
          exact hbef (j + 1) (by omega)
  have h0 := hmain maxAttempts 0 i hi (by rw [Nat.zero_add]; exact hready)
      (by intro j hj; rw [Nat.zero_add]; exact hbefore j hj)
  refine ⟨h0, ?_, by decide⟩
  rw [show attemptLoop polls = pollLoop polls maxAttempts 0 from rfl, h0]
  decide

/-- Claim C2 witness: the first poll reports ready with zero items; the job
ends Failed with the empty-result message. -/
theorem claim2_witness :
    attemptLoop (fun j => if j = 0 then Except.ok ⟨true, 0⟩ else Except.ok ⟨false, 0⟩)
      = ⟨Phase.failed, some emptyResultMsg⟩
    ∧ (attemptLoop
        (fun j => if j = 0 then Except.ok ⟨true, 0⟩ else Except.ok ⟨false, 0⟩)).phase
        ≠ Phase.completed
    ∧ emptyResultMsg ≠ timeoutMsg :=
  claim2_empty_ready_fails _ 0 (by decide) (by rfl)
    (fun j hj => absurd hj (Nat.not_lt_zero j))

/-- Claim C3, as stated, is false on the code: after `push "a"`, `finish`
and an iteration whose `chat_update` raises, the except-branch (lines 96-99)
only logs and breaks — the update log stays empty, the loop is stopped, a
further iteration changes nothing, and the sink still shows the placeholder;
no best-effort update with the buffer plus an error message is ever issued. -/
theorem claim3_counterexample :
    (loopIterFail (complete (addContent (initialState 0 1) "a")) 600).updates = []
    ∧ (loopIterFail (complete (addContent (initialState 0 1) "a")) 600).isRunning
        = false
    ∧ loopIter (loopIterFail (complete (addContent (initialState 0 1) "a")) 600) 700
        = loopIterFail (complete (addContent (initialState 0 1) "a")) 600
    ∧ sinkText (loopIterFail (complete (addContent (initialState 0 1) "a")) 600)
        = placeholderText := by
  decide

/-- Claim C3 (amended): if a sink update call raises during the flush loop,
the loop logs the error and terminates immediately: the update log is
unchanged, `is_running` becomes false, and any further loop iteration leaves
the state untouched — no retry and no further sink update of any kind. -/
theorem claim3_sink_failure_stops_loop (s : HandlerState) (now t : Nat)
    (hr : s.isRunning = true)
    (hatt : ((decide (s.lastUpdateTime + updateInterval ≤ now) || s.isComplete)
             && ((s.queue.foldl (· ++ ·) s.buffer) != "")) = true) :
    (loopIterFail s now).updates = s.updates
    ∧ (loopIterFail s now).isRunning = false
    ∧ loopIter (loopIterFail s now) t = loopIterFail s now := by
  have hcond : (s.isRunning
      && ((decide (s.lastUpdateTime + updateInterval ≤ now) || s.isComplete)
           && ((s.queue.foldl (· ++ ·) s.buffer) != ""))) = true := by
    rw [Bool.and_eq_true]
    exact ⟨hr, hatt⟩
  unfold loopIterFail
  rw [if_pos hcond]
  exact ⟨rfl, rfl, loopIter_not_running _ t rfl⟩

/-- Claim C3 witness: the amended behaviour at the concrete failing session
of the counterexample. -/
theorem claim3_witness :
    (loopIterFail (complete (addContent (initialState 2 3) "hi")) 600).updates
      = (complete (addContent (initialState 2 3) "hi")).updates
    ∧ (loopIterFail (complete (addContent (initialState 2 3) "hi")) 600).isRunning
        = false
    ∧ loopIter (loopIterFail (complete (addContent (initialState 2 3) "hi")) 600) 700
        = loopIterFail (complete (addContent (initialState 2 3) "hi")) 600 :=
  claim3_sink_failure_stops_loop _ 600 700 (by decide) (by decide)

/-- Claim C4: `_initialize_codebase` never propagates an exception: for every
input it returns a value (`Except.ok`), never an error; and whenever the
`try`-block body raises, the boundary converts the exception into the
failure value `False` with the agent state unchanged. -/
theorem claim4_start_never_throws (available : Bool) (p q : PreparerRun)
    (repoName : String) (st : AgentState) (e : String)
    (hq : initCodebaseBody q repoName st = Except.error e) :
    (∃ r, initializeCodebase available p repoName st = Except.ok r)
    ∧ (∀ msg, initializeCodebase available p repoName st ≠ Except.error msg)
    ∧ initializeCodebase true q repoName st = Except.ok (false, st) := by
  have hok : ∀ (b : Bool) (pr : PreparerRun),
      ∃ r, initializeCodebase b pr repoName st = Except.ok r := by
    intro b pr
    unfold initializeCodebase
    by_cases hb : (!b) = true
    · rw [if_pos hb]
      exact ⟨(false, st), rfl⟩
    · rw [if_neg hb]
      cases hbody : initCodebaseBody pr repoName st with
      | ok r => exact ⟨r, rfl⟩
      | error msg => exact ⟨(false, st), rfl⟩
  refine ⟨hok available p, ?_, ?_⟩
  · intro msg hcontra
    rcases hok available p with ⟨r, hr⟩
    rw [hr] at hcontra
    exact Except.noConfusion hcontra
  · unfold initializeCodebase
    rw [if_neg (by decide), hq]

/-- Claim C4 witness: a preparer whose `parse_repo()` raises "boom" is
converted to a `False` return; a succeeding preparer also yields a plain
return value. -/
theorem claim4_witness :
    (∃ r, initializeCodebase true
        ⟨Except.ok "app", Except.ok (), Except.ok ⟨7⟩⟩ "owner/repo"
        ⟨none, none, none, none⟩ = Except.ok r)
    ∧ (∀ msg, initializeCodebase true
        ⟨Except.ok "app", Except.ok (), Except.ok ⟨7⟩⟩ "owner/repo"
        ⟨none, none, none, none⟩ ≠ Except.error msg)
    ∧ initializeCodebase true ⟨Except.ok "app", Except.error "boom", Except.ok ⟨7⟩⟩
        "owner/repo" ⟨none, none, none, none⟩
        = Except.ok (false, ⟨none, none, none, none⟩) :=
  claim4_start_never_throws true ⟨Except.ok "app", Except.ok (), Except.ok ⟨7⟩⟩
    ⟨Except.ok "app", Except.error "boom", Except.ok ⟨7⟩⟩ "owner/repo"
    ⟨none, none, none, none⟩ "boom" (by rfl)

/-- Claim C5, as stated, is false at the degenerate input: a burst of two
empty fragments within the interval followed by `finish` produces zero sink
update calls, not exactly one. -/
theorem claim5_counterexample :
    (run 0 1 [Ev.push "", Ev.push "", Ev.finish, Ev.iter 100]).updates = []
    ∧ (run 0 1 [Ev.push "", Ev.push "", Ev.finish, Ev.iter 100]).updates.length
        ≠ 1 := by
  decide

/-- Claim C5 (amended): for every burst of fragments all pushed (with loop
iterations all happening) before the flush interval elapses, followed by
`finish` and the loop running to termination, if the concatenation of the
fragments is non-empty then the flush loop issues exactly one sink update
call, whose content is the concatenation of all pushed fragments; if every
fragment is empty, it issues none. -/
theorem claim5_burst_single_update (t0 ts t1 : Nat) (xs ys : List Ev)
    (hx : noFinishB xs = true)
    (ht : itersBeforeB (t0 + updateInterval) xs = true)
    (hys : itersOnlyB ys = true)
    (hne : concatAll (pushedOf xs) ≠ "") :
    (run t0 ts (xs ++ Ev.finish :: Ev.iter t1 :: ys)).updates
      = [concatAll (pushedOf xs)] := by
  have hsplit : run t0 ts (xs ++ Ev.finish :: Ev.iter t1 :: ys)
      = runFrom (loopIter (complete (runFrom (initialState t0 ts) xs)) t1) ys := by
    simp only [run, runFrom_append]
    rfl
  have hpre := runFrom_noFinish (initialState t0 ts) xs rfl rfl hx
  have hquiet := runFrom_quiet (initialState t0 ts) xs rfl rfl hx ht
  have hC : (runFrom (initialState t0 ts) xs).buffer
      ++ concatAll (runFrom (initialState t0 ts) xs).queue
      = concatAll (pushedOf xs) := by
    rw [runFrom_content]
    show ("" : String) ++ concatAll [] ++ _ = _
    rw [concatAll_nil, String.append_empty, String.empty_append]
  have hfin := loopIter_final (complete (runFrom (initialState t0 ts) xs)) t1
      rfl hpre.2
  rw [hsplit, runFrom_stopped _ ys hfin.1 hys, hfin.2.2]
  have hC2 : (complete (runFrom (initialState t0 ts) xs)).buffer
      ++ concatAll (complete (runFrom (initialState t0 ts) xs)).queue
      = concatAll (pushedOf xs) := hC
  have hbne : ((complete (runFrom (initialState t0 ts) xs)).buffer
      ++ concatAll (complete (runFrom (initialState t0 ts) xs)).queue) != "" := by
    rw [hC2]
    exact bne_iff_ne.mpr hne
  rw [if_pos hbne, hC2]
  have hupd0 : (complete (runFrom (initialState t0 ts) xs)).updates = [] := hquiet.1
  rw [hupd0]
  exact List.nil_append _

/-- Claim C5 witness: the spec scenario — ten fragments pushed within 50 ms
(one pre-finish loop iteration at 25 ms issues nothing), `finish`, and the
next loop iteration delivers exactly one update with all ten concatenated. -/
theorem claim5_witness :
    (run 0 1 [Ev.push "a", Ev.push "b", Ev.push "c", Ev.push "d", Ev.push "e",
        Ev.iter 25, Ev.push "f", Ev.push "g", Ev.push "h", Ev.push "i",
        Ev.push "j", Ev.finish, Ev.iter 60]).updates
      = [concatAll (pushedOf [Ev.push "a", Ev.push "b", Ev.push "c", Ev.push "d",
          Ev.push "e", Ev.iter 25, Ev.push "f", Ev.push "g", Ev.push "h",
          Ev.push "i", Ev.push "j"])] :=
  claim5_burst_single_update 0 1 60
    [Ev.push "a", Ev.push "b", Ev.push "c", Ev.push "d", Ev.push "e",
      Ev.iter 25, Ev.push "f", Ev.push "g", Ev.push "h", Ev.push "i",
      Ev.push "j"] []
    (by decide) (by decide) (by decide) (by decide)

/-- Claim C6 (modelled from the spec, §4.2): the backoff policy is a pure
function of the attempt index — deterministic (it is a `def`, and equal
indices give equal waits), monotonically non-decreasing in the attempt
index, and bounded above by the fixed per-attempt cap. -/
theorem claim6_backoff_properties (base cap i j : Nat) (hij : i ≤ j) :
    (∀ k, k = i → backoffWait base cap k = backoffWait base cap i)
    ∧ backoffWait base cap i ≤ backoffWait base cap j
    ∧ backoffWait base cap i ≤ cap := by
  refine ⟨fun k hk => by rw [hk], ?_, ?_⟩
  · exact min_le_min (Nat.mul_le_mul_left base (Nat.succ_le_succ hij)) le_rfl
  · exact min_le_right _ _

/-- Claim C6 witness: base 100 ms, cap 450 ms, attempts 2 and 3. -/
theorem claim6_witness :
    (∀ k, k = 2 → backoffWait 100 450 k = backoffWait 100 450 2)
    ∧ backoffWait 100 450 2 ≤ backoffWait 100 450 3
    ∧ backoffWait 100 450 2 ≤ 450 :=
  claim6_backoff_properties 100 450 2 3 (by decide)

/-- Claim C7: on every session state — in particular a running, not yet
completed one — `complete()` sets the completion flag to true and changes
nothing else: every other field (message handle, buffer, pending queue,
update log, last-update time, running flag) is untouched and no sink call is
made; and on every session state whose flag is already true, no operation
(push, finish, a loop iteration, or a failing loop iteration) ever resets
the flag. -/
theorem claim7_complete_frame_monotone (s s2 : HandlerState) (e : Ev) (u : Nat)
    (h : s2.isComplete = true) :
    (complete s).messageTs = s.messageTs
    ∧ (complete s).buffer = s.buffer
    ∧ (complete s).queue = s.queue
    ∧ (complete s).updates = s.updates
    ∧ (complete s).lastUpdateTime = s.lastUpdateTime
    ∧ (complete s).isRunning = s.isRunning
    ∧ (complete s).isComplete = true
    ∧ (step s2 e).isComplete = true
    ∧ (loopIterFail s2 u).isComplete = true := by
  refine ⟨rfl, rfl, rfl, rfl, rfl, rfl, rfl, ?_, ?_⟩
  · cases e with
    | push f => exact h
    | finish => rfl
    | iter t2 =>
      show (loopIter s2 t2).isComplete = true
      rw [loopIter_isComplete]
      exact h
  · rw [loopIterFail_isComplete]
    exact h

/-- Claim C7 witness: the first `finish` on a running, incomplete session
with pending content sets only the flag; a completed session keeps its flag
across a push and a failing iteration. -/
theorem claim7_witness :
    (complete (addContent (initialState 0 1) "x")).messageTs
      = (addContent (initialState 0 1) "x").messageTs
    ∧ (complete (addContent (initialState 0 1) "x")).buffer
        = (addContent (initialState 0 1) "x").buffer
    ∧ (complete (addContent (initialState 0 1) "x")).queue
        = (addContent (initialState 0 1) "x").queue
    ∧ (complete (addContent (initialState 0 1) "x")).updates
        = (addContent (initialState 0 1) "x").updates
    ∧ (complete (addContent (initialState 0 1) "x")).lastUpdateTime
        = (addContent (initialState 0 1) "x").lastUpdateTime
    ∧ (complete (addContent (initialState 0 1) "x")).isRunning
        = (addContent (initialState 0 1) "x").isRunning
    ∧ (complete (addContent (initialState 0 1) "x")).isComplete = true
    ∧ (step (complete (addContent (initialState 0 1) "x")) (Ev.push "y")).isComplete
        = true
    ∧ (loopIterFail (complete (addContent (initialState 0 1) "x")) 600).isComplete
        = true :=
  claim7_complete_frame_monotone (addContent (initialState 0 1) "x")
    (complete (addContent (initialState 0 1) "x")) (Ev.push "y") 600 (by decide)

/-- Claim C8, as stated, is false on the code: a caller observing the
NotStarted phase receives "Repository parsing has not started for
`owner/repo`.", which contains no please-wait (nor any "wait") instruction
at all. -/
theorem claim8_counterexample :
    formatParsingStatus ⟨"not_started", "owner/repo", ""⟩
      = "Repository parsing has not started for `owner/repo`."
    ∧ strContains (formatParsingStatus ⟨"not_started", "owner/repo", ""⟩) "wait"
        = false
    ∧ strContains (formatParsingStatus ⟨"not_started", "owner/repo", ""⟩) "Wait"
        = false
    ∧ strContains (formatParsingStatus ⟨"not_started", "owner/repo", ""⟩) "Please"
        = false := by
  decide

/-- Claim C8 (amended): for every status snapshot, a caller observing
InProgress receives a message containing "Please wait"; a caller observing
NotStarted receives a message merely stating that parsing has not started
(with no wait instruction); and a caller observing Failed receives a message
containing the stored error together with the instruction that "retry
parsing" is available. -/
theorem claim8_status_messages (repo err : String) :
    strContains (formatParsingStatus ⟨"in_progress", repo, err⟩) "Please wait"
      = true
    ∧ strContains (formatParsingStatus ⟨"failed", repo, err⟩) err = true
    ∧ strContains (formatParsingStatus ⟨"failed", repo, err⟩) "retry parsing"
        = true := by
  have hip : formatParsingStatus ⟨"in_progress", repo, err⟩
      = "Repository parsing is in progress for `" ++ repo ++ "`. Please wait..." := by
    simp [formatParsingStatus]
  have hfl : formatParsingStatus ⟨"failed", repo, err⟩
      = "Repository parsing failed for `" ++ repo ++ "` with error: " ++ err
        ++ "\n\nYou can ask the agent to \x27retry parsing\x27 to attempt again." := by
    simp [formatParsingStatus]
  refine ⟨?_, ?_, ?_⟩
  · rw [hip]
    show hasSubL ("Please wait".data)
      (("Repository parsing is in progress for `" ++ repo
        ++ "`. Please wait...").data) = true
    rw [String.data_append, String.data_append]
    exact hasSubL_of_suffix _ _ _ (by decide)
  · rw [hfl]
    show hasSubL err.data
      (("Repository parsing failed for `" ++ repo ++ "` with error: " ++ err
        ++ "\n\nYou can ask the agent to \x27retry parsing\x27 to attempt again.").data)
      = true
    rw [String.data_append, String.data_append, String.data_append,
      String.data_append, List.append_assoc]
    exact hasSubL_of_suffix _ _ _ (hasSubL_self_append _ _)
  · rw [hfl]
    show hasSubL ("retry parsing".data)
      (("Repository parsing failed for `" ++ repo ++ "` with error: " ++ err
        ++ "\n\nYou can ask the agent to \x27retry parsing\x27 to attempt again.").data)
      = true
    rw [String.data_append]
    exact hasSubL_of_suffix _ _ _ (by decide)

/-- Claim C9: the flush loop never issues a sink update with empty content,
and if every pushed fragment of a session is empty (in particular if nothing
is pushed), the loop makes zero update calls and the sink still shows the
initial placeholder posted by `start()`, even after `complete`. -/
theorem claim9_no_empty_updates (t0 ts : Nat) (es es2 : List Ev) (u : String)
    (hu : u ∈ (run t0 ts es).updates)
    (h2 : pushesEmptyB es2 = true) :
    u ≠ ""
    ∧ (run t0 ts es2).updates = []
    ∧ sinkText (run t0 ts es2) = placeholderText := by
  have h1 := runFrom_updates_nonempty (initialState t0 ts) es
      (by intro x hx; exact absurd hx (List.not_mem_nil x))
  have hempty := runFrom_allEmpty (initialState t0 ts) es2
      (by show ("" : String) ++ concatAll [] = ""
          rw [concatAll_nil, String.append_empty]) rfl h2
  refine ⟨h1 u hu, hempty.1, ?_⟩
  show ((runFrom (initialState t0 ts) es2).updates.getLast?).getD placeholderText
    = placeholderText
  rw [hempty.1]
  rfl

/-- Claim C9 witness: a session delivering "a", and a session that pushes
only an empty fragment and never replaces the placeholder. -/
theorem claim9_witness :
    ("a" : String) ≠ ""
    ∧ (run 0 1 [Ev.push "", Ev.finish, Ev.iter 700]).updates = []
    ∧ sinkText (run 0 1 [Ev.push "", Ev.finish, Ev.iter 700]) = placeholderText :=
  claim9_no_empty_updates 0 1 [Ev.push "a", Ev.finish, Ev.iter 600]
    [Ev.push "", Ev.finish, Ev.iter 700] "a" (by decide) (by decide)

/-- Claim C10: the flush loop terminates only after completion (or a sink
error): on every schedule that never invokes `complete` (and has no raising
iteration) the loop is still running at the end; and from any state in which
`complete` has been invoked, the very next loop iteration terminates the
loop (so termination follows after finitely many further iterations). -/
theorem claim10_termination (t0 ts : Nat) (es : List Ev) (s : HandlerState)
    (t : Nat) (h1 : noFinishB es = true) (h2 : s.isComplete = true) :
    (run t0 ts es).isRunning = true
    ∧ (loopIter s t).isRunning = false := by
  constructor
  · exact (runFrom_noFinish (initialState t0 ts) es rfl rfl h1).2
  · exact loopIter_stops s t h2

/-- Claim C10 witness: without `finish` the loop is still running after
several iterations; with `complete` set, one iteration stops it. -/
theorem claim10_witness :
    (run 0 1 [Ev.push "a", Ev.iter 600, Ev.push "b", Ev.iter 1200]).isRunning = true
    ∧ (loopIter (complete (addContent (initialState 0 1) "a")) 50).isRunning
        = false :=
  claim10_termination 0 1 [Ev.push "a", Ev.iter 600, Ev.push "b", Ev.iter 1200]
    (complete (addContent (initialState 0 1) "a")) 50 (by decide) (by decide)

end Spec2Proof
